import Mathlib

/-!
Verification development for the modern-minds mobile application.

The definitions below are a shallow embedding of the repository source:
the literal sample-data arrays, the pure state updaters of the screen
components, and the animation setup of the mascot components. Each
definition is translated directly from the corresponding source function;
React `useState` updates are modelled as explicit state passing, and the
UI event loop of a screen as a guarded step function on a state record.
JavaScript numbers are modelled as `Int` (integral data) or `Rat`
(values produced by `Math.random()` and timing arithmetic).
-/

namespace ModernMinds

/-! ## Data model (literal sample arrays from the source) -/

/-- Quote record, from the `Quote` interface of the wisdom screen. -/
structure Quote where
  id : Int
  text : String
  author : String
deriving DecidableEq, Repr

/-- Philosophy record, from the `Philosophy` interface of the wisdom screen. -/
structure Philosophy where
  id : Int
  name : String
  icon : String
  description : String
  quotes : List Quote
deriving DecidableEq, Repr

/-- The module-level `philosophers` array of the wisdom screen. -/
def philosophers : List Philosophy := [
  { id := 1, name := "Stoicism", icon := "🏛️",
    description := "Ancient Greek and Roman philosophy emphasizing virtue, reason, and resilience.",
    quotes := [
      { id := 1, text := "The happiness of your life depends upon the quality of your thoughts.", author := "Marcus Aurelius" },
      { id := 2, text := "You have power over your mind - not outside events. Realize this, and you will find strength.", author := "Marcus Aurelius" },
      { id := 3, text := "He who fears death will never do anything worthy of a man who is alive.", author := "Seneca" }
    ] },
  { id := 2, name := "Buddhism", icon := "☸️",
    description := "Eastern philosophy focused on mindfulness, compassion, and the end of suffering.",
    quotes := [
      { id := 1, text := "Peace comes from within. Do not seek it without.", author := "Buddha" },
      { id := 2, text := "The mind is everything. What you think you become.", author := "Buddha" },
      { id := 3, text := "Holding on to anger is like grasping a hot coal with the intent of throwing it at someone else; you are the one who gets burned.", author := "Buddha" }
    ] },
  { id := 3, name := "Taoism", icon := "☯️",
    description := "Chinese philosophy emphasizing living in harmony with the Tao (the Way).",
    quotes := [
      { id := 1, text := "Nature does not hurry, yet everything is accomplished.", author := "Lao Tzu" },
      { id := 2, text := "A good traveler has no fixed plans and is not intent on arriving.", author := "Lao Tzu" },
      { id := 3, text := "The journey of a thousand miles begins with a single step.", author := "Lao Tzu" }
    ] },
  { id := 4, name := "Confucianism", icon := "🧠",
    description := "Chinese ethical and philosophical system focused on proper conduct and social harmony.",
    quotes := [
      { id := 1, text := "It does not matter how slowly you go as long as you do not stop.", author := "Confucius" },
      { id := 2, text := "Life is really simple, but we insist on making it complicated.", author := "Confucius" },
      { id := 3, text := "Our greatest glory is not in never falling, but in rising every time we fall.", author := "Confucius" }
    ] }
]

/-- Habit record, from the `Habit` interface of the habits screen. -/
structure Habit where
  id : Int
  name : String
  description : String
  philosophy : String
  streak : Int
  completed : Bool
  color : String
deriving DecidableEq, Repr

/-- First entry of the `initialHabits` array of the habits screen. -/
def habitMeditation : Habit :=
  { id := 1, name := "Morning Meditation",
    description := "Start the day with 10 minutes of mindfulness",
    philosophy := "Buddhism", streak := 3, completed := false, color := "#A1CEDC" }

/-- Second entry of the `initialHabits` array of the habits screen. -/
def habitJournaling : Habit :=
  { id := 2, name := "Journaling",
    description := "Evening reflection on daily events",
    philosophy := "Stoicism", streak := 5, completed := false, color := "#D0A1DC" }

/-- Third entry of the `initialHabits` array of the habits screen. -/
def habitNatureWalk : Habit :=
  { id := 3, name := "Nature Walk",
    description := "Connect with nature for 20 minutes",
    philosophy := "Taoism", streak := 1, completed := false, color := "#A1DCA5" }

/-- Fourth entry of the `initialHabits` array of the habits screen. -/
def habitGratitude : Habit :=
  { id := 4, name := "Gratitude Practice",
    description := "List three things you are grateful for",
    philosophy := "Stoicism", streak := 7, completed := false, color := "#DCA1A1" }

/-- The module-level `initialHabits` array of the habits screen. -/
def initialHabits : List Habit :=
  [habitMeditation, habitJournaling, habitNatureWalk, habitGratitude]

/-- Framework record, from the `Framework` interface of the decisions screen. -/
structure Framework where
  id : Int
  name : String
  description : String
  philosophy : String
  steps : List String
deriving DecidableEq, Repr

/-- First entry of the `frameworks` array of the decisions screen. -/
def stoicFork : Framework :=
  { id := 1, name := "Stoic Fork",
    description := "Based on Stoic philosophy, this framework helps you focus on what you can control.",
    philosophy := "Stoicism",
    steps := [
      "Identify what aspects of the situation are within your control",
      "Recognize what aspects are outside your control",
      "Focus your energy only on what you can influence",
      "Accept with equanimity what you cannot change"
    ] }

/-- Second entry of the `frameworks` array of the decisions screen. -/
def middleWay : Framework :=
  { id := 2, name := "Middle Way",
    description := "Inspired by Buddhist philosophy, find balance between extremes.",
    philosophy := "Buddhism",
    steps := [
      "Identify the extreme positions or choices",
      "Reflect on the potential consequences of each extreme",
      "Find a balanced approach that avoids extremes",
      "Choose the path that minimizes suffering for all involved"
    ] }

/-- Third entry of the `frameworks` array of the decisions screen. -/
def wuWeiDecision : Framework :=
  { id := 3, name := "Wu Wei Decision",
    description := "Based on Taoist principle of \"effortless action\" - align with the natural flow.",
    philosophy := "Taoism",
    steps := [
      "Observe the natural patterns in the situation",
      "Consider which option requires the least force or resistance",
      "Identify which choice aligns with your true nature",
      "Choose the path of least resistance that accomplishes your goal"
    ] }

/-- Fourth entry of the `frameworks` array of the decisions screen. -/
def socraticMethod : Framework :=
  { id := 4, name := "Socratic Method",
    description := "Use systematic questioning to examine assumptions and reach clarity.",
    philosophy := "Greek Philosophy",
    steps := [
      "What do I think I know about this situation?",
      "How can I test these assumptions?",
      "What contradictions exist in my thinking?",
      "What is the most logical conclusion based on this examination?"
    ] }

/-- The module-level `frameworks` array of the decisions screen. -/
def frameworks : List Framework := [stoicFork, middleWay, wuWeiDecision, socraticMethod]

/-- Preference record, from the `PhilosophicalPreference` interface of the profile screen. -/
structure PhilosophicalPreference where
  id : Int
  name : String
  selected : Bool
deriving DecidableEq, Repr

/-- The module-level `philosophicalPreferences` array of the profile screen. -/
def philosophicalPreferences : List PhilosophicalPreference := [
  { id := 1, name := "Stoicism", selected := true },
  { id := 2, name := "Buddhism", selected := true },
  { id := 3, name := "Taoism", selected := true },
  { id := 4, name := "Confucianism", selected := false },
  { id := 5, name := "Epicureanism", selected := false },
  { id := 6, name := "Existentialism", selected := false }
]

/-- Profile record, from the `ProfileData` interface of the profile screen. -/
structure ProfileData where
  name : String
  joinDate : String
  streak : Int
  favoritePhilosophy : String
  completedHabits : Int
  decisionsGuided : Int
deriving DecidableEq, Repr

/-- The module-level `profileData` object of the profile screen. -/
def profileData : ProfileData :=
  { name := "Alex Johnson", joinDate := "April 2025", streak := 12,
    favoritePhilosophy := "Stoicism", completedHabits := 42, decisionsGuided := 15 }

/-- Settings record, from the `AppSettings` interface of the profile screen. -/
structure AppSettings where
  darkMode : Bool
  notifications : Bool
  dailyReminders : Bool
  weeklyReports : Bool
  dataSync : Bool
deriving DecidableEq, Repr

/-- The module-level `initialSettings` object of the profile screen. -/
def initialSettings : AppSettings :=
  { darkMode := false, notifications := true, dailyReminders := true,
    weeklyReports := true, dataSync := false }

/-! ## State updaters of the habits and profile screens -/

/-- The per-element function the `toggleHabitCompletion` updater maps over
the previous habit list (the arrow body inside `prevHabits.map`). -/
def toggleHabitElement (id : Int) (habit : Habit) : Habit :=
  if habit.id = id then
    { habit with
      completed := !habit.completed
      streak := if !habit.completed then habit.streak + 1 else habit.streak - 1 }
  else habit

/-- The `toggleHabitCompletion` updater of the habits screen: the function
passed to `setHabits`, mapping the previous habit list to the new one.
The affected elements are those whose `id` field equals the argument. -/
def toggleHabitCompletion (id : Int) (prevHabits : List Habit) : List Habit :=
  prevHabits.map (toggleHabitElement id)

/-- The `togglePreference` updater of the profile screen. -/
def togglePreference (id : Int) (prevPreferences : List PhilosophicalPreference) :
    List PhilosophicalPreference :=
  prevPreferences.map (fun pref =>
    if pref.id = id then { pref with selected := !pref.selected } else pref)

/-- The keys of `AppSettings`, for the `toggleSetting` updater. -/
inductive SettingKey where
  | darkMode | notifications | dailyReminders | weeklyReports | dataSync
deriving DecidableEq, Repr

/-- The `toggleSetting` updater of the profile screen (computed-key spread
update, written out per key). -/
def toggleSetting (setting : SettingKey) (prevSettings : AppSettings) : AppSettings :=
  match setting with
  | .darkMode => { prevSettings with darkMode := !prevSettings.darkMode }
  | .notifications => { prevSettings with notifications := !prevSettings.notifications }
  | .dailyReminders => { prevSettings with dailyReminders := !prevSettings.dailyReminders }
  | .weeklyReports => { prevSettings with weeklyReports := !prevSettings.weeklyReports }
  | .dataSync => { prevSettings with dataSync := !prevSettings.dataSync }

/-! ## Decisions screen state machine -/

/-- Whitespace characters removed by JavaScript `String.prototype.trim`
(the ASCII part of the WhiteSpace and LineTerminator productions). -/
def jsWhitespace (c : Char) : Bool :=
  c == ' ' || c == '\t' || c == '\n' || c == '\r' ||
  c == Char.ofNat 11 || c == Char.ofNat 12

/-- JavaScript `String.prototype.trim`, modelled over the character list:
drop whitespace from both ends. -/
def jsTrim (s : String) : String :=
  String.mk (((s.data.dropWhile jsWhitespace).reverse.dropWhile jsWhitespace).reverse)

/-- The mascot mood enumeration used by the screens and `MascotCharacter`. -/
inductive MascotMood where
  | happy | thinking | excited | meditating
deriving DecidableEq, Repr

/-- Local component state of `DecisionsScreen` (the `useState` hooks). -/
structure DecisionsState where
  decision : String
  selectedFramework : Option Framework
  currentStep : Nat
  responses : List String
  showResults : Bool
  inputText : String
  mascotMood : MascotMood
deriving DecidableEq, Repr

/-- Initial decisions-screen state (the `useState` initial values). -/
def initialDecisionsState : DecisionsState :=
  { decision := "", selectedFramework := none, currentStep := 0, responses := [],
    showResults := false, inputText := "", mascotMood := .thinking }

/-- The `handleFrameworkSelect` handler of the decisions screen. -/
def handleFrameworkSelect (s : DecisionsState) (framework : Framework) : DecisionsState :=
  { s with
    selectedFramework := some framework
    currentStep := 0
    responses := []
    showResults := false
    mascotMood := .excited }

/-- The `handleNextStep` handler of the decisions screen. The JavaScript
condition `currentStep < selectedFramework.steps.length - 1` is mirrored
with truncated `Nat` subtraction, which agrees with the JavaScript value
for every list length. -/
def handleNextStep (s : DecisionsState) (response : String) : DecisionsState :=
  let s1 := { s with responses := s.responses ++ [response], inputText := "" }
  match s.selectedFramework with
  | some f =>
    if s.currentStep < f.steps.length - 1 then
      { s1 with
        currentStep := s.currentStep + 1
        mascotMood :=
          if s.currentStep = 0 then .thinking
          else if s.currentStep = f.steps.length - 2 then .excited
          else s.mascotMood }
    else
      { s1 with showResults := true, mascotMood := .meditating }
  | none => { s1 with showResults := true, mascotMood := .meditating }

/-- The `resetDecision` handler of the decisions screen. -/
def resetDecision (s : DecisionsState) : DecisionsState :=
  { s with
    decision := ""
    selectedFramework := none
    currentStep := 0
    responses := []
    showResults := false
    mascotMood := .thinking }

/-- UI events of the decisions screen. -/
inductive DecisionsEvent where
  | setDecision (text : String)
  | selectFramework (framework : Framework)
  | setInput (text : String)
  | nextStep
  | reset
deriving DecidableEq, Repr

/-- Whether the UI exposes an event in a given state: the decision text
input and framework cards render only before a framework is selected
(cards additionally carry `disabled` unless `decision.trim()` is truthy),
the step input and next button render only while a framework is selected
and results are not shown, and the two reset buttons render only while a
framework is selected. -/
def enabled (s : DecisionsState) : DecisionsEvent → Bool
  | .setDecision _ => s.selectedFramework.isNone
  | .selectFramework f =>
      s.selectedFramework.isNone && !(decide (jsTrim s.decision = "")) && decide (f ∈ frameworks)
  | .setInput _ => s.selectedFramework.isSome && !s.showResults
  | .nextStep => s.selectedFramework.isSome && !s.showResults
  | .reset => s.selectedFramework.isSome

/-- One UI event applied to the decisions-screen state. The next button
passes the current `inputText` to `handleNextStep`. -/
def decisionsStep (s : DecisionsState) : DecisionsEvent → DecisionsState
  | .setDecision t => { s with decision := t }
  | .selectFramework f => handleFrameworkSelect s f
  | .setInput t => { s with inputText := t }
  | .nextStep => handleNextStep s s.inputText
  | .reset => resetDecision s

/-- States of the decisions screen reachable from mount by UI events the
rendered interface exposes. -/
inductive Reachable : DecisionsState → Prop where
  | init : Reachable initialDecisionsState
  | step {s : DecisionsState} {e : DecisionsEvent} :
      Reachable s → enabled s e = true → Reachable (decisionsStep s e)

/-- The `disabled` prop of a framework card: the source passes
`disabled={!decision.trim()}`, and a JavaScript string is falsy exactly
when it is empty. -/
def frameworkCardDisabled (decision : String) : Bool :=
  decide (jsTrim decision = "")

/-- Invariant of the decisions screen: while a framework is selected it is
one of the literal frameworks, the step index is in range, and responses
are in bijection with the steps answered so far. -/
def DecisionsInv (s : DecisionsState) : Prop :=
  ∀ f, s.selectedFramework = some f →
    f ∈ frameworks ∧ s.currentStep < f.steps.length ∧
    (s.showResults = true → s.responses.length = f.steps.length) ∧
    (s.showResults = false → s.responses.length = s.currentStep)

/-! Demonstration trace of the decisions screen: enter a decision, select
the Stoic Fork framework, then press the next button four times. -/

def ds0 : DecisionsState := initialDecisionsState

def ds1 : DecisionsState := decisionsStep ds0 (.setDecision "Take the new role")

def ds2 : DecisionsState := decisionsStep ds1 (.selectFramework stoicFork)

def ds3 : DecisionsState := decisionsStep ds2 .nextStep

def ds4 : DecisionsState := decisionsStep ds3 .nextStep

def ds5 : DecisionsState := decisionsStep ds4 .nextStep

def ds6 : DecisionsState := decisionsStep ds5 .nextStep

/-! ## Whole-application state: module-level literals are never mutated -/

/-- The union of UI events of the stateful screens. -/
inductive AppEvent where
  | toggleHabit (id : Int)
  | togglePref (id : Int)
  | toggleSet (key : SettingKey)
  | decisionsUi (e : DecisionsEvent)
deriving DecidableEq, Repr

/-- Whole-application state: the component `useState` values of the
stateful screens, together with the contents of the module-level literal
bindings. The JavaScript updaters build new arrays and objects with `map`
and spread syntax, so an event handler replaces a component-state field
and performs no assignment to (or in-place mutation of) a module binding;
the step function below mirrors exactly that. -/
structure AppState where
  habits : List Habit
  preferences : List PhilosophicalPreference
  settings : AppSettings
  decisionsScreen : DecisionsState
  moduleHabits : List Habit
  moduleFrameworks : List Framework
  modulePhilosophers : List Philosophy
  modulePreferences : List PhilosophicalPreference
  moduleProfile : ProfileData
deriving Repr

/-- Application state at load: the screen states start from the literal
arrays, and the module bindings hold those same literals. -/
def initialAppState : AppState :=
  { habits := initialHabits, preferences := philosophicalPreferences,
    settings := initialSettings, decisionsScreen := initialDecisionsState,
    moduleHabits := initialHabits, moduleFrameworks := frameworks,
    modulePhilosophers := philosophers, modulePreferences := philosophicalPreferences,
    moduleProfile := profileData }

/-- One UI event applied to the whole-application state. -/
def appStep (s : AppState) : AppEvent → AppState
  | .toggleHabit id => { s with habits := toggleHabitCompletion id s.habits }
  | .togglePref id => { s with preferences := togglePreference id s.preferences }
  | .toggleSet key => { s with settings := toggleSetting key s.settings }
  | .decisionsUi e => { s with decisionsScreen := decisionsStep s.decisionsScreen e }

/-! ## Mascot animation choreography (`MascotCharacter`) -/

/-- One `withTiming` step: target value, duration (none = library default),
and `withDelay` offset. Values and milliseconds are JavaScript numbers,
modelled as rationals. -/
structure TimingStep where
  toValue : ℚ
  duration : Option ℚ
  delay : ℚ
deriving DecidableEq, Repr

/-- A `withTiming(v, { duration := d })` step with no delay. -/
def timing (v d : ℚ) : TimingStep := ⟨v, some d, 0⟩

/-- What the mount effect does to one shared value: nothing, a direct
assignment, or a `withRepeat(withSequence(...), repetitions, reverse)`. -/
inductive MoodAnim where
  | off
  | setTo (v : ℚ)
  | repeating (steps : List TimingStep) (repetitions : Int) (reverse : Bool)
deriving DecidableEq, Repr

/-- The mascot `bodyBounce` animation (started for every mood). -/
def mascotBodyBounce : MoodAnim :=
  .repeating [timing (-5) 1000, timing 0 1000] (-1) true

/-- The mood-keyed mascot `wingFlap` animation. -/
def mascotWingFlap : MascotMood → MoodAnim
  | .excited => .repeating [timing (-15) 200, timing 0 200] (-1) true
  | .thinking => .repeating [timing (-5) 1000, timing 0 1000] (-1) true
  | _ => .off

/-- The mood-keyed mascot `headTilt` animation (`meditating` assigns 0
directly). -/
def mascotHeadTilt : MascotMood → MoodAnim
  | .thinking => .repeating [timing 10 1000, timing 0 1000] (-1) true
  | .meditating => .setTo 0
  | _ => .off

/-- The mood-keyed mascot `floatY` animation. -/
def mascotFloatY : MascotMood → MoodAnim
  | .meditating => .repeating [timing (-10) 2000, timing 0 2000] (-1) true
  | _ => .off

/-- The mood-keyed mascot `floatingElement1Y` animation. -/
def mascotFloatingElement1Y : MascotMood → MoodAnim
  | .meditating => .repeating [timing (-10) 1500, timing 0 1500] (-1) true
  | _ => .off

/-- The mood-keyed mascot `floatingElement2Y` animation. -/
def mascotFloatingElement2Y : MascotMood → MoodAnim
  | .meditating => .repeating [timing (-8) 2000, timing 0 2000] (-1) true
  | _ => .off

/-- The `blinkEyes` value-transition sequence on `eyeBlink`. -/
def blinkSteps : List TimingStep :=
  [timing (1/10) 100, timing 1 100, timing (1/10) 100, timing 1 100]

/-- Delay until the next blink: `setTimeout(blinkEyes, 2000 + Math.random() * 2000)`,
with `r` the `Math.random()` draw. -/
def nextBlinkDelay (r : ℚ) : ℚ := 2000 + r * 2000

/-- One run of the mascot mount effect: the animations it starts on each
shared value, and the blink loop rescheduling delays as a function of the
stream of `Math.random()` draws. -/
structure MascotRun where
  bodyBounce : MoodAnim
  wingFlap : MoodAnim
  headTilt : MoodAnim
  floatY : MoodAnim
  floatingElement1Y : MoodAnim
  floatingElement2Y : MoodAnim
  blinkSequence : List TimingStep
  blinkDelays : ℕ → ℚ

/-- The mascot mount effect for a mood and a stream of random draws. -/
def mascotRun (mood : MascotMood) (rand : ℕ → ℚ) : MascotRun :=
  { bodyBounce := mascotBodyBounce
    wingFlap := mascotWingFlap mood
    headTilt := mascotHeadTilt mood
    floatY := mascotFloatY mood
    floatingElement1Y := mascotFloatingElement1Y mood
    floatingElement2Y := mascotFloatingElement2Y mood
    blinkSequence := blinkSteps
    blinkDelays := fun n => nextBlinkDelay (rand n) }

/-- One cycle of `setupHandMovements` in `PaxtonCharacter`: with draw
`rSkip` at least 0.9 the arm moves to a random angle `rAngle * 8 - 3` over
a random duration `2000 + rDur * 1000` and back; otherwise the arm resets
and nothing is started. -/
def paxtonHandMovement (rSkip rAngle rDur : ℚ) : Option (List TimingStep) :=
  if rSkip < 9/10 then none
  else some [timing (rAngle * 8 - 3) (2000 + rDur * 1000), timing 0 1000]

/-- Delay until the next `randomizeArmMovements` cycle:
`25000 + Math.random() * 10000`. -/
def nextHandMovementDelay (r : ℚ) : ℚ := 25000 + r * 10000

/-! ## Paxton animation cancellation (`PaxtonCharacter`) -/

/-- The Paxton mood enumeration. -/
inductive PaxMood where
  | happy | thinking | excited | shy
deriving DecidableEq, Repr, Fintype

/-- The ten animation shared values of `PaxtonCharacter`. -/
inductive PaxValue where
  | bodyBounce | bodyRotation | jumpHeight | characterRotation
  | armWave | legSwing | headTilt | eyeBlink | mouthSmile | floatY
deriving DecidableEq, Repr, Fintype

/-- The explicit `cancelAnimation` calls at the top of `performJump`. -/
def performJumpCancelList : List PaxValue :=
  [.jumpHeight, .armWave, .headTilt, .floatY]

/-- The shared values `performJump` then restarts through `startAnimation`
(each restart cancels the value again before assigning). -/
def performJumpStartList : List PaxValue :=
  [.jumpHeight, .floatY, .armWave, .headTilt]

/-- The `cancelAnimation` calls in the mount-effect cleanup, which runs on
unmount and again before every rerun of the effect when `mood` changes. -/
def effectCleanupCancelList : List PaxValue :=
  [.bodyBounce, .armWave, .headTilt, .floatY, .eyeBlink, .legSwing,
   .bodyRotation, .mouthSmile, .characterRotation, .jumpHeight]

/-- Events that can cancel Paxton animations: a user press (which invokes
`performJump`), a mood prop change (which reruns the effect after its
cleanup), and component unmount. -/
inductive PaxEvent where
  | press
  | moodChange (m : PaxMood)
  | unmount
deriving DecidableEq, Repr

/-- The shared values whose in-flight animations an event cancels. -/
def cancelsOf : PaxEvent → List PaxValue
  | .press => performJumpCancelList ++ performJumpStartList
  | .moodChange _ => effectCleanupCancelList
  | .unmount => effectCleanupCancelList

/-- The shared values on which the Paxton mount effect starts an infinite
(`withRepeat(..., -1, ...)`) animation, per mood: the core idle bounce and
breathing plus the mood-specific loops. -/
def effectInfiniteStarts : PaxMood → List PaxValue
  | .happy => [.bodyBounce, .bodyBounce, .armWave, .bodyBounce]
  | .thinking => [.bodyBounce, .bodyBounce, .armWave, .headTilt, .bodyBounce]
  | .excited => [.bodyBounce, .bodyBounce, .armWave, .bodyBounce, .armWave]
  | .shy => [.bodyBounce, .bodyBounce, .armWave]

/-! ## Error handling of the Paxton animation calls -/

/-- A shared value slot: either a plain number assignment or an animation
specification assigned to `value`. -/
inductive SlotVal where
  | num (q : ℚ)
  | anim (steps : List TimingStep)
deriving DecidableEq, Repr

/-- The `startAnimation` helper of `PaxtonCharacter`: it cancels the
existing animation and assigns the new one inside a `try` block; if the
block throws, the `catch` logs `Animation error:` and the slot keeps its
previous content. -/
def startAnimation (throws : Bool) (value : SlotVal) (animation : SlotVal) :
    SlotVal × List String :=
  if throws then (value, ["Animation error:"])
  else (animation, [])

/-- The `withSequence` assigned to `jumpHeight` in `performJump`
(`withDelay(50, withTiming(-30))` has the library default duration). -/
def jumpHeightSeq : List TimingStep :=
  [timing (-30) 280, ⟨-30, none, 50⟩, timing 0 350, timing (-5) 100, timing 0 150]

/-- The `withSequence` assigned to `floatY` (hat lag) in `performJump`. -/
def jumpFloatYSeq : List TimingStep :=
  [⟨-8, some 200, 30⟩, ⟨0, some 300, 50⟩]

/-- The `withSequence` assigned to `armWave` in `performJump`. -/
def jumpArmWaveSeq : List TimingStep :=
  [timing 40 180, timing (-20) 220, timing 5 150, timing 0 100]

/-- The `withSequence` assigned to `headTilt` in `performJump`. -/
def jumpHeadTiltSeq : List TimingStep :=
  [timing 5 150, timing (-2) 200, timing 0 150]

/-- The four shared value slots `performJump` touches. -/
structure JumpSlots where
  jumpHeight : SlotVal
  armWave : SlotVal
  headTilt : SlotVal
  floatY : SlotVal
deriving DecidableEq, Repr

/-- The slots at mount: each of the four shared values starts at 0. -/
def initialJumpSlots : JumpSlots :=
  { jumpHeight := .num 0, armWave := .num 0, headTilt := .num 0, floatY := .num 0 }

/-- The `performJump` handler of `PaxtonCharacter`. The `try` block assigns
the four jump animations in source order (jumpHeight, floatY, armWave,
headTilt); `failAt = some k` models an exception thrown by the k-th
assignment (so the earlier assignments have already happened), upon which
the `catch` branch logs `Jump animation error:` and resets `jumpHeight`
to 0 and `armWave` and `headTilt` to 1 — `floatY` is not reset. -/
def performJump (failAt : Option Nat) (s : JumpSlots) : JumpSlots × List String :=
  let assigns : List (JumpSlots → JumpSlots) := [
    fun t => { t with jumpHeight := .anim jumpHeightSeq },
    fun t => { t with floatY := .anim jumpFloatYSeq },
    fun t => { t with armWave := .anim jumpArmWaveSeq },
    fun t => { t with headTilt := .anim jumpHeadTiltSeq }]
  match failAt with
  | none => (assigns.foldl (fun t f => f t) s, [])
  | some k =>
      let partialState := (assigns.take k).foldl (fun t f => f t) s
      ({ partialState with jumpHeight := .num 0, armWave := .num 1, headTilt := .num 1 },
       ["Jump animation error:"])

/-! ## Wisdom screen daily quote selection -/

/-- All quotes of the wisdom screen: `philosophers.flatMap(p => p.quotes)`. -/
def wisdomAllQuotes : List Quote := philosophers.flatMap (fun p => p.quotes)

/-- The initial `dailyQuote` state value of the wisdom screen. -/
def defaultQuote : Quote := { id := 0, text := "", author := "" }

/-- The random index drawn at mount:
`Math.floor(Math.random() * allQuotes.length)`, with `r` the
`Math.random()` draw. -/
def dailyQuoteIndex (r : ℚ) : Nat :=
  (Int.floor (r * (wisdomAllQuotes.length : ℚ))).toNat

/-- The daily quote the wisdom screen selects and renders after mount. -/
def dailyQuote (r : ℚ) : Quote :=
  wisdomAllQuotes.getD (dailyQuoteIndex r) defaultQuote

/-! ## Theorems -/

/-- Every framework in the literal `frameworks` array has exactly four steps. -/
theorem steps_length_of_mem : ∀ f ∈ frameworks, f.steps.length = 4 := by
  intro f hf
  simp [frameworks] at hf
  rcases hf with h | h | h | h <;> subst h <;> rfl

theorem reachable_inv {s : DecisionsState} (h : Reachable s) : DecisionsInv s := by
  induction h with
  | init =>
      intro f hf
      simp [initialDecisionsState] at hf
  | @step s e hr he ih =>
      cases e with
      | setDecision t =>
          intro f hf
          exact ih f hf
      | setInput t =>
          intro f hf
          exact ih f hf
      | reset =>
          intro f hf
          simp [decisionsStep, resetDecision] at hf
      | selectFramework f0 =>
          intro f hf
          have hff : f0 = f := by
            simpa [decisionsStep, handleFrameworkSelect] using hf
          subst hff
          have hmem : f0 ∈ frameworks := by
            simp [enabled, Bool.and_eq_true] at he
            exact he.2
          have h4 := steps_length_of_mem f0 hmem
          refine ⟨hmem, ?_, ?_, ?_⟩
          · simp [decisionsStep, handleFrameworkSelect, h4]
          · intro hsr
            simp [decisionsStep, handleFrameworkSelect] at hsr
          · intro _
            simp [decisionsStep, handleFrameworkSelect]
      | nextStep =>
          intro f hf
          have hsr : s.showResults = false := by
            simp [enabled, Bool.and_eq_true] at he
            exact he.2
          cases hsel : s.selectedFramework with
          | none =>
              exfalso
              simp [decisionsStep, handleNextStep, hsel] at hf
          | some f1 =>
              obtain ⟨hmem, hlt, _, hresp⟩ := ih f1 hsel
              have hresp' := hresp hsr
              have h4 := steps_length_of_mem f1 hmem
              by_cases hc : s.currentStep < f1.steps.length - 1
              · have hff : f1 = f := by
                  simpa [decisionsStep, handleNextStep, hsel, hc] using hf
                subst hff
                refine ⟨hmem, ?_, ?_, ?_⟩
                · simp only [decisionsStep, handleNextStep, hsel]
                  rw [if_pos hc]
                  simp only []
                  omega
                · intro habs
                  simp only [decisionsStep, handleNextStep, hsel] at habs
                  rw [if_pos hc] at habs
                  simp only [] at habs
                  rw [hsr] at habs
                  exact absurd habs (by simp)
                · intro _
                  simp only [decisionsStep, handleNextStep, hsel]
                  rw [if_pos hc]
                  simp only [List.length_append, List.length_cons, List.length_nil]
                  omega
              · have hff : f1 = f := by
                  simpa [decisionsStep, handleNextStep, hsel, hc] using hf
                subst hff
                refine ⟨hmem, ?_, ?_, ?_⟩
                · simp only [decisionsStep, handleNextStep, hsel]
                  rw [if_neg hc]
                  exact hlt
                · intro _
                  simp only [decisionsStep, handleNextStep, hsel]
                  rw [if_neg hc]
                  simp only [List.length_append, List.length_cons, List.length_nil]
                  omega
                · intro habs
                  simp only [decisionsStep, handleNextStep, hsel] at habs
                  rw [if_neg hc] at habs
                  simp at habs

/-- C9: whenever a framework is selected in a reachable decisions-screen
state, the step index satisfies `currentStep < selectedFramework.steps.length`
(the lower bound `0 ≤ currentStep` holds because the index is a natural
number), the responses recorded so far match the steps answered, and at any
enabled event that turns `showResults` from false to true the number of
recorded responses equals the number of framework steps. -/
theorem decisions_step_invariant (s : DecisionsState) (hs : Reachable s)
    (f : Framework) (hf : s.selectedFramework = some f) :
    f ∈ frameworks ∧
    s.currentStep < f.steps.length ∧
    (s.showResults = true → s.responses.length = f.steps.length) ∧
    (s.showResults = false → s.responses.length = s.currentStep) ∧
    (∀ e, enabled s e = true → s.showResults = false →
      (decisionsStep s e).showResults = true →
      (decisionsStep s e).responses.length = f.steps.length) := by
  obtain ⟨hmem, hlt, h1, h2⟩ := reachable_inv hs f hf
  refine ⟨hmem, hlt, h1, h2, ?_⟩
  intro e he hsr hsr'
  have hnext := reachable_inv (Reachable.step hs he)
  cases e with
  | setDecision t =>
      exfalso
      have : s.showResults = true := hsr'
      rw [hsr] at this
      exact Bool.false_ne_true this
  | setInput t =>
      exfalso
      have : s.showResults = true := hsr'
      rw [hsr] at this
      exact Bool.false_ne_true this
  | selectFramework f0 =>
      exfalso
      simp [decisionsStep, handleFrameworkSelect] at hsr'
  | reset =>
      exfalso
      simp [decisionsStep, resetDecision] at hsr'
  | nextStep =>
      have hf' : (decisionsStep s .nextStep).selectedFramework = some f := by
        simp only [decisionsStep, handleNextStep, hf]
        split <;> rfl
      obtain ⟨_, _, h1', _⟩ := hnext f hf'
      exact h1' hsr'

theorem decisions_step_invariant_witness :
    ds2.selectedFramework = some stoicFork ∧
    ds2.currentStep < stoicFork.steps.length ∧
    ds2.responses.length = ds2.currentStep :=
  have h2 : Reachable ds2 :=
    Reachable.step (Reachable.step Reachable.init (by decide)) (by decide)
  have h := decisions_step_invariant ds2 h2 stoicFork rfl
  ⟨rfl, h.2.1, h.2.2.2.1 rfl⟩

/-- C1 counterexample: a concrete sequence of UI events the decisions
screen exposes drives a multi-step stateful progression: the step index
advances 0, 1, 2, 3 through the selected framework steps and a final
next-step event transitions the screen to the results state, with one
recorded response per framework step. This refutes the claim that no
component implements a state machine driven by UI events. -/
theorem decisions_multi_step_progression_cex :
    Reachable ds6 ∧
    ds2.currentStep = 0 ∧ ds2.showResults = false ∧
    ds3.currentStep = 1 ∧ ds4.currentStep = 2 ∧ ds5.currentStep = 3 ∧
    ds5.showResults = false ∧ ds6.showResults = true ∧
    ds6.responses.length = stoicFork.steps.length ∧
    ds6.mascotMood = MascotMood.meditating := by
  refine ⟨?_, ?_, ?_, ?_, ?_, ?_, ?_, ?_, ?_, ?_⟩
  · exact .step (.step (.step (.step (.step (.step .init (by decide)) (by decide))
      (by decide)) (by decide)) (by decide)) (by decide)
  all_goals decide

/-- C1 amended: the decisions screen does implement a UI-event-driven state
machine: while a framework with remaining steps is selected, `handleNextStep`
records the response and advances `currentStep` by one; on the last step it
records the response and transitions to the results state with the mascot
meditating. -/
theorem handleNextStep_drives_progression (s : DecisionsState) (f : Framework)
    (hf : s.selectedFramework = some f) (r : String) :
    (s.currentStep < f.steps.length - 1 →
      (handleNextStep s r).currentStep = s.currentStep + 1 ∧
      (handleNextStep s r).showResults = s.showResults ∧
      (handleNextStep s r).responses = s.responses ++ [r] ∧
      (handleNextStep s r).selectedFramework = some f) ∧
    (¬ s.currentStep < f.steps.length - 1 →
      (handleNextStep s r).showResults = true ∧
      (handleNextStep s r).currentStep = s.currentStep ∧
      (handleNextStep s r).responses = s.responses ++ [r] ∧
      (handleNextStep s r).mascotMood = MascotMood.meditating) := by
  constructor
  · intro hc
    simp only [handleNextStep, hf]
    rw [if_pos hc]
    exact ⟨rfl, rfl, rfl, rfl⟩
  · intro hc
    simp only [handleNextStep, hf]
    rw [if_neg hc]
    exact ⟨rfl, rfl, rfl, rfl⟩

theorem handleNextStep_drives_progression_witness :
    ds2.currentStep < stoicFork.steps.length - 1 ∧
    (handleNextStep ds2 "Focus on preparation").currentStep = ds2.currentStep + 1 :=
  ⟨by decide,
   ((handleNextStep_drives_progression ds2 stoicFork rfl "Focus on preparation").1
     (by decide)).1⟩

/-- C10: while the entered decision text trims to the empty string, every
framework card carries `disabled`, the select-framework event is not
enabled for any framework, and no enabled event can make a framework
selected, so the step flow cannot start. -/
theorem frameworks_disabled_while_decision_blank (s : DecisionsState)
    (hempty : jsTrim s.decision = "") (hsel : s.selectedFramework = none) :
    frameworkCardDisabled s.decision = true ∧
    (∀ f : Framework, enabled s (.selectFramework f) = false) ∧
    (∀ e, enabled s e = true → (decisionsStep s e).selectedFramework = none) := by
  refine ⟨by simp [frameworkCardDisabled, hempty], ?_, ?_⟩
  · intro f
    simp [enabled, hempty]
  · intro e he
    cases e with
    | setDecision t => exact hsel
    | selectFramework f => simp [enabled, hempty] at he
    | setInput t => simp [enabled, hsel] at he
    | nextStep => simp [enabled, hsel] at he
    | reset => simp [enabled, hsel] at he

theorem frameworks_disabled_while_decision_blank_witness :
    frameworkCardDisabled initialDecisionsState.decision = true ∧
    enabled initialDecisionsState (.selectFramework stoicFork) = false :=
  have h := frameworks_disabled_while_decision_blank initialDecisionsState rfl rfl
  ⟨h.1, h.2.1 stoicFork⟩

/-! ## Habit and preference toggling: identity by id, involution, frame -/

theorem toggleHabitElement_involutive (id : Int) (h : Habit) :
    toggleHabitElement id (toggleHabitElement id h) = h := by
  cases h with
  | mk hid hname hdesc hphil hstreak hcomp hcolor =>
      by_cases hidq : hid = id
      · cases hcomp <;> simp [toggleHabitElement, hidq]
      · simp [toggleHabitElement, hidq]

/-- C8: `toggleHabitCompletion` is an involution with a frame condition:
applying it twice with the same id restores the original list, and one
application maps the element at each position to itself when its id does
not match, and otherwise flips `completed`, moves `streak` by one in the
direction of the flip, and leaves every other field unchanged. -/
theorem toggleHabitCompletion_involution_frame :
    (∀ (id : Int) (l : List Habit),
       toggleHabitCompletion id (toggleHabitCompletion id l) = l) ∧
    (∀ (id : Int) (l : List Habit) (i : Nat) (h h' : Habit),
       l[i]? = some h → (toggleHabitCompletion id l)[i]? = some h' →
       (h.id ≠ id → h' = h) ∧
       (h.id = id →
          h'.completed = !h.completed ∧
          h'.streak = (if h.completed then h.streak - 1 else h.streak + 1) ∧
          h'.id = h.id ∧ h'.name = h.name ∧ h'.description = h.description ∧
          h'.philosophy = h.philosophy ∧ h'.color = h.color)) := by
  constructor
  · intro id l
    induction l with
    | nil => rfl
    | cons hd tl ih =>
        simp only [toggleHabitCompletion, List.map_cons] at ih ⊢
        rw [toggleHabitElement_involutive, ih]
  · intro id l i h h' hl hl'
    have hmap : (toggleHabitCompletion id l)[i]? = some (toggleHabitElement id h) := by
      simp [toggleHabitCompletion, hl]
    rw [hmap] at hl'
    obtain rfl : toggleHabitElement id h = h' := Option.some.inj hl'
    refine ⟨?_, ?_⟩
    · intro hne
      simp [toggleHabitElement, hne]
    · intro heq
      simp only [toggleHabitElement, heq, if_pos rfl]
      cases hc : h.completed <;> simp [hc]

theorem toggleHabitCompletion_involution_frame_witness :
    toggleHabitCompletion 2 (toggleHabitCompletion 2 initialHabits) = initialHabits ∧
    (toggleHabitCompletion 2 initialHabits)[1]? =
      some { habitJournaling with completed := true, streak := 6 } ∧
    ({ habitJournaling with completed := true, streak := 6 } : Habit).completed =
      !habitJournaling.completed ∧
    ({ habitJournaling with completed := true, streak := 6 } : Habit).streak =
      habitJournaling.streak + 1 := by
  have hfr := (toggleHabitCompletion_involution_frame.2 2 initialHabits 1 habitJournaling
    { habitJournaling with completed := true, streak := 6 } (by decide) (by decide)).2 rfl
  exact ⟨toggleHabitCompletion_involution_frame.1 2 initialHabits, by decide, hfr.1,
    by decide⟩

/-- C2 counterexample: the element affected by an update is not determined
by its array position. Toggling habit id 1 on two lists that hold the same
two habits in swapped positions changes position 0 in one list and
position 1 in the other, so the affected element follows the `id` field,
not the index; `togglePreference` likewise changes the entry whose id
matches at whatever position it occupies. -/
theorem updates_not_positional_cex :
    (toggleHabitCompletion 1 [habitMeditation, habitJournaling])[0]? ≠
      some habitMeditation ∧
    (toggleHabitCompletion 1 [habitMeditation, habitJournaling])[1]? =
      some habitJournaling ∧
    (toggleHabitCompletion 1 [habitJournaling, habitMeditation])[0]? =
      some habitJournaling ∧
    (toggleHabitCompletion 1 [habitJournaling, habitMeditation])[1]? ≠
      some habitMeditation ∧
    (togglePreference 4 philosophicalPreferences)[3]? ≠
      philosophicalPreferences[3]? := by
  refine ⟨?_, ?_, ?_, ?_, ?_⟩ <;> decide

/-- C2 amended: update operations select the affected element by its
numeric `id` field, independently of position: the update distributes over
any decomposition of the list around an element, a list holding no element
with the given id is left unchanged, and on the literal sample arrays each
element's id happens to equal its position plus one, so id-keyed selection
coincides with positional selection there. -/
theorem updates_select_by_id :
    (∀ (id : Int) (l1 l2 : List Habit) (h : Habit),
       toggleHabitCompletion id (l1 ++ h :: l2) =
         toggleHabitCompletion id l1 ++
           toggleHabitElement id h :: toggleHabitCompletion id l2) ∧
    (∀ (id : Int) (l : List Habit), (∀ h ∈ l, h.id ≠ id) →
       toggleHabitCompletion id l = l) ∧
    (∀ (id : Int) (l : List PhilosophicalPreference), (∀ p ∈ l, p.id ≠ id) →
       togglePreference id l = l) ∧
    (∀ i : Fin initialHabits.length, (initialHabits.get i).id = Int.ofNat i.val + 1) ∧
    (∀ i : Fin philosophicalPreferences.length,
       (philosophicalPreferences.get i).id = Int.ofNat i.val + 1) := by
  refine ⟨?_, ?_, ?_, ?_, ?_⟩
  · intro id l1 l2 h
    simp [toggleHabitCompletion]
  · intro id l hl
    simp only [toggleHabitCompletion]
    calc l.map (toggleHabitElement id) = l.map (fun h => h) := by
          apply List.map_congr_left
          intro h hmem
          simp [toggleHabitElement, hl h hmem]
      _ = l := l.map_id'
  · intro id l hl
    simp only [togglePreference]
    calc l.map _ = l.map (fun p => p) := by
          apply List.map_congr_left
          intro p hmem
          simp [hl p hmem]
      _ = l := l.map_id'
  · intro i
    fin_cases i <;> rfl
  · intro i
    fin_cases i <;> rfl

theorem updates_select_by_id_witness :
    toggleHabitCompletion 2 ([habitMeditation] ++ habitJournaling ::
        [habitNatureWalk, habitGratitude]) =
      toggleHabitCompletion 2 [habitMeditation] ++
        toggleHabitElement 2 habitJournaling ::
          toggleHabitCompletion 2 [habitNatureWalk, habitGratitude] ∧
    toggleHabitCompletion 99 initialHabits = initialHabits ∧
    togglePreference 99 philosophicalPreferences = philosophicalPreferences :=
  ⟨updates_select_by_id.1 2 [habitMeditation] [habitNatureWalk, habitGratitude]
      habitJournaling,
   updates_select_by_id.2.1 99 initialHabits (by decide),
   updates_select_by_id.2.2.1 99 philosophicalPreferences (by decide)⟩

/-- C7: after any sequence of UI events, the module-level literal arrays
and objects (`initialHabits`, `frameworks`, `philosophers`,
`philosophicalPreferences`, `profileData`) still hold exactly their
initial literal contents: every handler produces new component state and
never changes the module bindings. -/
theorem module_literals_never_mutated (es : List AppEvent) :
    (es.foldl appStep initialAppState).moduleHabits = initialHabits ∧
    (es.foldl appStep initialAppState).moduleFrameworks = frameworks ∧
    (es.foldl appStep initialAppState).modulePhilosophers = philosophers ∧
    (es.foldl appStep initialAppState).modulePreferences = philosophicalPreferences ∧
    (es.foldl appStep initialAppState).moduleProfile = profileData := by
  have key : ∀ (es : List AppEvent) (s : AppState),
      (es.foldl appStep s).moduleHabits = s.moduleHabits ∧
      (es.foldl appStep s).moduleFrameworks = s.moduleFrameworks ∧
      (es.foldl appStep s).modulePhilosophers = s.modulePhilosophers ∧
      (es.foldl appStep s).modulePreferences = s.modulePreferences ∧
      (es.foldl appStep s).moduleProfile = s.moduleProfile := by
    intro es
    induction es with
    | nil => intro s; exact ⟨rfl, rfl, rfl, rfl, rfl⟩
    | cons e es ih =>
        intro s
        rw [List.foldl_cons]
        cases e <;> exact ih _
  exact key es initialAppState

/-- C3 counterexample: two runs of the mascot with the same mood do not
produce the same sequence of timed value transitions: the blink loop is
rescheduled by a timer whose delay is randomly drawn, and the Paxton hand
movement has randomly drawn amplitude, duration and rescheduling delay, so
different random draws yield different schedules. -/
theorem mascot_run_not_deterministic_cex :
    (mascotRun .happy (fun _ => 0)).blinkDelays 0 ≠
      (mascotRun .happy (fun _ => 1/2)).blinkDelays 0 ∧
    paxtonHandMovement (19/20) 0 0 ≠ paxtonHandMovement (19/20) (1/2) 0 ∧
    nextHandMovementDelay 0 ≠ nextHandMovementDelay (1/2) := by
  refine ⟨?_, ?_, ?_⟩
  · simp only [mascotRun, nextBlinkDelay]
    norm_num
  · simp only [paxtonHandMovement, timing]
    norm_num
  · simp only [nextHandMovementDelay]
    norm_num

/-- C3 amended: the mood-keyed value-transition presets are a fixed,
enumerable function of the mood alone — identical across any two runs —
and the blink transition sequence itself is fixed; the randomness affects
only the timer-based rescheduling delays, which stay in the interval
[2000, 4000) milliseconds. -/
theorem mascot_mood_presets_deterministic (m : MascotMood) (r1 r2 : ℕ → ℚ) :
    (mascotRun m r1).bodyBounce = (mascotRun m r2).bodyBounce ∧
    (mascotRun m r1).wingFlap = (mascotRun m r2).wingFlap ∧
    (mascotRun m r1).headTilt = (mascotRun m r2).headTilt ∧
    (mascotRun m r1).floatY = (mascotRun m r2).floatY ∧
    (mascotRun m r1).floatingElement1Y = (mascotRun m r2).floatingElement1Y ∧
    (mascotRun m r1).floatingElement2Y = (mascotRun m r2).floatingElement2Y ∧
    (mascotRun m r1).blinkSequence = (mascotRun m r2).blinkSequence ∧
    (∀ n, 0 ≤ r1 n → r1 n < 1 →
       2000 ≤ (mascotRun m r1).blinkDelays n ∧ (mascotRun m r1).blinkDelays n < 4000) := by
  refine ⟨rfl, rfl, rfl, rfl, rfl, rfl, rfl, ?_⟩
  intro n h0 h1
  simp only [mascotRun, nextBlinkDelay]
  constructor <;> nlinarith

theorem mascot_mood_presets_deterministic_witness :
    (mascotRun .meditating (fun _ => 0)).wingFlap =
      (mascotRun .meditating (fun _ => 1/2)).wingFlap ∧
    2000 ≤ (mascotRun .meditating (fun _ => 0)).blinkDelays 0 ∧
    (mascotRun .meditating (fun _ => 0)).blinkDelays 0 < 4000 :=
  have h := mascot_mood_presets_deterministic .meditating (fun _ => 0) (fun _ => 1/2)
  have hb := h.2.2.2.2.2.2.2 0 (by norm_num) (by norm_num)
  ⟨h.2.1, hb.1, hb.2⟩

/-- C4 counterexample: unmount is not the only canceller of in-flight
animations. For every mood the mount effect keeps an infinite repeating
animation on `armWave`, and a user press (`performJump`) cancels the
in-flight `armWave` animation even though no unmount occurred. -/
theorem press_cancels_inflight_cex :
    PaxValue.armWave ∈ cancelsOf PaxEvent.press ∧
    (∀ m : PaxMood, PaxValue.armWave ∈ effectInfiniteStarts m) ∧
    PaxEvent.press ≠ PaxEvent.unmount := by
  decide

/-- C4 amended: animations are cancelled by unmount (all ten shared
values), by the effect cleanup on every mood change (the same ten), and by
a user press, whose `performJump` cancels exactly the four values it then
restarts (`jumpHeight`, `floatY`, `armWave`, `headTilt`); every value a
press cancels is also among those unmount cancels. -/
theorem cancellation_semantics :
    (∀ v : PaxValue, v ∈ cancelsOf PaxEvent.unmount) ∧
    (∀ (m : PaxMood) (v : PaxValue),
       (v ∈ cancelsOf (PaxEvent.moodChange m)) ↔ v ∈ cancelsOf PaxEvent.unmount) ∧
    (∀ v : PaxValue, (v ∈ cancelsOf PaxEvent.press) ↔ v ∈ performJumpStartList) ∧
    (∀ v : PaxValue, v ∈ cancelsOf PaxEvent.press → v ∈ cancelsOf PaxEvent.unmount) := by
  decide

theorem cancellation_semantics_witness :
    PaxValue.jumpHeight ∈ cancelsOf PaxEvent.unmount ∧
    PaxValue.jumpHeight ∈ cancelsOf PaxEvent.press :=
  ⟨cancellation_semantics.1 .jumpHeight,
   (cancellation_semantics.2.2.1 .jumpHeight).2 (by decide)⟩

/-- C6 counterexample: the error handling is not only null-guards around
animation calls: `performJump` has a catch-based recovery path that logs a
warning and performs an error-branch state reset (`jumpHeight` to 0,
`armWave` and `headTilt` to 1), producing a state distinct from the normal
path, and `startAnimation` likewise recovers from a throw by catching and
logging. -/
theorem catch_branch_recovery_cex :
    (performJump (some 0) initialJumpSlots).1 ≠ (performJump none initialJumpSlots).1 ∧
    (performJump (some 0) initialJumpSlots).2 = ["Jump animation error:"] ∧
    (performJump (some 0) initialJumpSlots).1.jumpHeight = .num 0 ∧
    (performJump (some 0) initialJumpSlots).1.armWave = .num 1 ∧
    (performJump (some 0) initialJumpSlots).1.headTilt = .num 1 ∧
    (startAnimation true (.num 0) (.anim jumpHeightSeq)).2 = ["Animation error:"] := by
  refine ⟨?_, ?_, ?_, ?_, ?_, ?_⟩ <;> decide

/-- C6 amended: the error handling consists of `try`/`catch` blocks around
the animation calls: whenever the jump block throws, the catch branch
resets `jumpHeight` to 0 and `armWave` and `headTilt` to 1 and logs a
warning, while `floatY` keeps whatever the block assigned before the
throw; `startAnimation` catches a throw, logs a warning and leaves the
slot unchanged, and assigns the animation when nothing throws. -/
theorem error_handling_catch_semantics (k : Nat) (s : JumpSlots) (v a : SlotVal) :
    (performJump (some k) s).1.jumpHeight = .num 0 ∧
    (performJump (some k) s).1.armWave = .num 1 ∧
    (performJump (some k) s).1.headTilt = .num 1 ∧
    (performJump (some k) s).1.floatY =
      (if 2 ≤ k then SlotVal.anim jumpFloatYSeq else s.floatY) ∧
    (performJump (some k) s).2 = ["Jump animation error:"] ∧
    (startAnimation true v a).1 = v ∧
    (startAnimation true v a).2 = ["Animation error:"] ∧
    (startAnimation false v a) = (a, []) := by
  refine ⟨rfl, rfl, rfl, ?_, rfl, rfl, rfl, rfl⟩
  rcases k with _ | _ | _ | _ | n <;> simp [performJump, List.take]

/-- C5 counterexample: what the wisdom screen displays after mount is not
a deterministic function of the literal data and local state alone: two
runs that differ only in the `Math.random()` draw at mount display
different daily quotes. -/
theorem daily_quote_random_cex :
    (dailyQuote 0).author = "Marcus Aurelius" ∧
    (dailyQuote (1/2)).author = "Lao Tzu" ∧
    dailyQuote 0 ≠ dailyQuote (1/2) := by
  have h0 : dailyQuoteIndex 0 = 0 := by
    simp [dailyQuoteIndex]
  have h6 : dailyQuoteIndex (1/2) = 6 := by
    have hlen : wisdomAllQuotes.length = 12 := rfl
    unfold dailyQuoteIndex
    rw [hlen]
    norm_num
    rfl
  refine ⟨?_, ?_, ?_⟩
  · rw [dailyQuote, h0]
    rfl
  · rw [dailyQuote, h6]
    rfl
  · rw [dailyQuote, dailyQuote, h0, h6]
    decide

/-- C5 amended: apart from the randomly selected daily quote, the wisdom
screen renders only the literal data: for every `Math.random()` draw, the
selected index is in range and the displayed quote is one of the twelve
quotes of the literal `philosophers` array. -/
theorem daily_quote_in_literal_data (r : ℚ) (hr0 : 0 ≤ r) (hr1 : r < 1) :
    dailyQuote r ∈ wisdomAllQuotes ∧ wisdomAllQuotes.length = 12 := by
  have hlen : wisdomAllQuotes.length = 12 := rfl
  have hlt : dailyQuoteIndex r < wisdomAllQuotes.length := by
    rw [hlen]
    unfold dailyQuoteIndex
    rw [hlen]
    have hmul : r * ((12 : Nat) : ℚ) < 12 := by push_cast; nlinarith
    have hb : Int.floor (r * ((12 : Nat) : ℚ)) < 12 :=
      Int.floor_lt.mpr (by push_cast at hmul ⊢; linarith)
    have hb0 : (0 : Int) ≤ Int.floor (r * ((12 : Nat) : ℚ)) :=
      Int.floor_nonneg.mpr (by positivity)
    omega
  refine ⟨?_, hlen⟩
  rw [dailyQuote, List.getD_eq_getElem wisdomAllQuotes defaultQuote hlt]
  exact List.getElem_mem hlt

theorem daily_quote_in_literal_data_witness :
    dailyQuote (2/3) ∈ wisdomAllQuotes :=
  (daily_quote_in_literal_data (2/3) (by norm_num) (by norm_num)).1

end ModernMinds
